import Mathlib

/-!
Verification of the holiday-card rendering core against its specification.

The definitions below are a shallow embedding of the Python source under
src/holiday_card/.  Python floats are modelled as exact rationals (or reals
for the trigonometric gradient code), Python ints as Lean Int/Nat, raised
exceptions as Except error values, and the ReportLab canvas text-measuring
oracle (stringWidth) as an explicit function parameter.
-/

namespace HolidayCard

/-! ## SVG path parser (utils/svg_parser.py) -/

namespace SvgPath

/-- The twenty supported SVG command letters, from COMMAND_PATTERN. -/
def cmdChars : List Char :=
  ['M', 'm', 'L', 'l', 'H', 'h', 'V', 'v', 'C', 'c',
   'S', 's', 'Q', 'q', 'T', 't', 'A', 'a', 'Z', 'z']

def isCmdChar (c : Char) : Bool := cmdChars.contains c

/-- Python str.strip()/split() whitespace characters. -/
def isSpaceChar (c : Char) : Bool :=
  c = ' ' ∨ c = '\t' ∨ c = '\n' ∨ c = '\x0d' ∨ c = '\x0b' ∨ c = '\x0c'

/-- Python str.strip(): drop whitespace from both ends. -/
def stripChars (s : List Char) : List Char :=
  ((s.dropWhile isSpaceChar).reverse.dropWhile isSpaceChar).reverse

/-- re.split with the capturing group COMMAND_PATTERN: the text between
command letters and each command letter itself become separate segments,
in order. -/
def splitAux : List Char → List Char → List (List Char)
  | buf, [] => [buf.reverse]
  | buf, c :: rest =>
    if isCmdChar c then buf.reverse :: [c] :: splitAux [] rest
    else splitAux (c :: buf) rest

def splitKeep (s : List Char) : List (List Char) := splitAux [] s

/-- segments = [s.strip() for s in segments if s.strip()] -/
def segmentsOf (s : List Char) : List (List Char) :=
  ((splitKeep s).map stripChars).filter (fun t => ¬ t.isEmpty)

/-- SVGPathParser._is_command: a single supported command character. -/
def is_command (s : List Char) : Bool :=
  match s with
  | [c] => isCmdChar c
  | _ => false

def isDigitChar (c : Char) : Bool := '0' ≤ c ∧ c ≤ '9'

/-- The optional exponent tail of NUMBER_PATTERN, (?:[eE][-+]?[0-9]+)? :
returns the consumed characters (empty when the exponent does not match). -/
def expoAt : List Char → List Char
  | [] => []
  | c :: rest =>
    if c = 'e' ∨ c = 'E' then
      match rest with
      | [] => []
      | d :: rest2 =>
        if d = '+' ∨ d = '-' then
          let ds := rest2.takeWhile isDigitChar
          if ds.isEmpty then [] else c :: d :: ds
        else
          let ds := rest.takeWhile isDigitChar
          if ds.isEmpty then [] else c :: ds
    else []

/-- Match [0-9]*\.?[0-9]+(?:[eE][-+]?[0-9]+)? at the head of the input,
with the regex's greedy/backtracking preference: the digit run, then a
decimal point only when at least one digit follows it, then the optional
exponent.  Returns the matched characters. -/
def matchAfterSign (s : List Char) : Option (List Char) :=
  let ds := s.takeWhile isDigitChar
  let rest := s.dropWhile isDigitChar
  if rest.head? = some '.' then
    let rest2 := rest.tail
    let fs := rest2.takeWhile isDigitChar
    let rest3 := rest2.dropWhile isDigitChar
    if fs.isEmpty then (if ds.isEmpty then none else some ds)
    else some (ds ++ '.' :: (fs ++ expoAt rest3))
  else if ds.isEmpty then none else some (ds ++ expoAt rest)

/-- Match NUMBER_PATTERN ([-+]?[0-9]*\.?[0-9]+(?:[eE][-+]?[0-9]+)?) at the
head of the input. -/
def matchNumAt (s : List Char) : Option (List Char) :=
  match s with
  | [] => none
  | c :: rest =>
    if c = '+' ∨ c = '-' then (matchAfterSign rest).map (fun t => c :: t)
    else matchAfterSign s

/-- NUMBER_PATTERN.findall: scan left to right, consuming each
non-overlapping match, advancing one character where nothing matches.
The fuel argument only bounds the recursion; every step consumes at least
one character, so fuel equal to the input length never runs out. -/
def findTokensFuel : ℕ → List Char → List (List Char)
  | 0, _ => []
  | _, [] => []
  | fuel + 1, c :: rest =>
    match matchNumAt (c :: rest) with
    | some tok => tok :: findTokensFuel fuel ((c :: rest).drop tok.length)
    | none => findTokensFuel fuel rest

def findTokens (s : List Char) : List (List Char) :=
  findTokensFuel s.length s

def digitVal (c : Char) : ℕ := c.toNat - '0'.toNat

def natOfDigits (ds : List Char) : ℕ :=
  ds.foldl (fun a c => a * 10 + digitVal c) 0

/-- Apply the exponent suffix of a matched numeric token to its mantissa. -/
def applyExpo (q : ℚ) (rest : List Char) : ℚ :=
  match rest with
  | [] => q
  | _ :: '-' :: ds => q / (10 : ℚ) ^ natOfDigits (ds.takeWhile isDigitChar)
  | _ :: '+' :: ds => q * (10 : ℚ) ^ natOfDigits (ds.takeWhile isDigitChar)
  | _ :: ds => q * (10 : ℚ) ^ natOfDigits (ds.takeWhile isDigitChar)

def ratOfUnsigned (t : List Char) : ℚ :=
  let ip := t.takeWhile isDigitChar
  let rest := t.dropWhile isDigitChar
  match rest with
  | '.' :: rest2 =>
    let fp := rest2.takeWhile isDigitChar
    let rest3 := rest2.dropWhile isDigitChar
    applyExpo ((natOfDigits ip : ℚ) + (natOfDigits fp : ℚ) / (10 : ℚ) ^ fp.length) rest3
  | _ => applyExpo (natOfDigits ip : ℚ) rest

/-- The exact rational value of a matched numeric token (Python applies
float(); the inputs in this development are exactly representable). -/
def ratOfToken (t : List Char) : ℚ :=
  match t with
  | '+' :: rest => ratOfUnsigned rest
  | '-' :: rest => - ratOfUnsigned rest
  | _ => ratOfUnsigned t

/-- SVGPathParser._parse_numbers. -/
def parse_numbers (s : List Char) : List ℚ :=
  (findTokens s).map ratOfToken

/-- A parsed SVG path command (dataclass PathCommand); the command is its
single SVGCommand letter. -/
structure PathCommand where
  command : Char
  params : List ℚ
deriving DecidableEq, Repr

/-- _get_expected_param_count: every one of the twenty supported commands
is present in the dictionary, so the Optional result is never None for a
valid command; Z and z map to 0. -/
def expectedParamCount (c : Char) : ℕ :=
  if c = 'M' ∨ c = 'm' ∨ c = 'L' ∨ c = 'l' then 2
  else if c = 'H' ∨ c = 'h' ∨ c = 'V' ∨ c = 'v' then 1
  else if c = 'C' ∨ c = 'c' then 6
  else if c = 'S' ∨ c = 's' then 4
  else if c = 'Q' ∨ c = 'q' then 4
  else if c = 'T' ∨ c = 't' then 2
  else if c = 'A' ∨ c = 'a' then 7
  else 0

/-- Exceptions raised by _parse_command: ValueError (unknown command, or a
parameter count that is neither the expected count nor a multiple of it),
and the ZeroDivisionError raised by len(params) % 0 when a Z/z command
(expecting 0 parameters) receives a nonzero number of parameters. -/
inductive PCError
  | valueError
  | zeroDivision
deriving DecidableEq, Repr

/-- SVGPathParser._parse_command. -/
def parse_command (c : Char) (params : List ℚ) : Except PCError PathCommand :=
  if ¬ isCmdChar c then .error .valueError
  else
    let k := expectedParamCount c
    if params.length = k then .ok ⟨c, params⟩
    else if k = 0 then .error .zeroDivision
    else if params.length % k = 0 then .ok ⟨c, params⟩
    else .error .valueError

deriving instance DecidableEq for Except

/-- Outcomes of SVGPathParser.parse that escape to the caller: the
ValueError for empty input, the ValueError raised when a segment in
command position is not a single supported command letter, and the
uncaught ZeroDivisionError from _parse_command. -/
inductive ParseError
  | emptyInput
  | expectedCommand (seg : List Char)
  | zeroDivisionError
deriving DecidableEq, Repr

/-- One iteration tail of the parse loop: a ValueError from _parse_command
is caught (warn and skip), a ZeroDivisionError escapes. -/
def consumeCmd (c : Char) (params : List ℚ)
    (restResult : Except ParseError (List PathCommand)) :
    Except ParseError (List PathCommand) :=
  match parse_command c params with
  | .ok cmd => restResult.map (fun l => cmd :: l)
  | .error .valueError => restResult
  | .error .zeroDivision => .error .zeroDivisionError

/-- The while-loop of SVGPathParser.parse over the stripped, non-empty
segments: each command-position segment must be a single supported letter;
a following non-command segment supplies that command's numeric
parameters. -/
def parseLoop : List (List Char) → Except ParseError (List PathCommand)
  | [] => .ok []
  | [c] :: [] =>
    if isCmdChar c then consumeCmd c [] (.ok [])
    else .error (.expectedCommand [c])
  | [c] :: r :: rs =>
    if isCmdChar c then
      if is_command r then consumeCmd c [] (parseLoop (r :: rs))
      else consumeCmd c (parse_numbers r) (parseLoop rs)
    else .error (.expectedCommand ([c] : List Char))
  | seg :: _ => .error (.expectedCommand seg)

/-- SVGPathParser.parse. -/
def parse (path_data : String) : Except ParseError (List PathCommand) :=
  let cs := stripChars path_data.toList
  if cs.isEmpty then .error .emptyInput
  else parseLoop (segmentsOf cs)


end SvgPath

/-! ## Color (core/models.py) -/

namespace Models

/-- Color: three components, each validated into [0.0, 1.0] at
construction.  Floats are modelled as exact rationals. -/
structure Color where
  r : ℚ
  g : ℚ
  b : ℚ
deriving DecidableEq, Repr

/-- The construction-time validation of Color (pydantic ge=0.0, le=1.0). -/
def Color.valid (c : Color) : Prop :=
  0 ≤ c.r ∧ c.r ≤ 1 ∧ 0 ≤ c.g ∧ c.g ≤ 1 ∧ 0 ≤ c.b ∧ c.b ≤ 1

/-- Python int(): truncation toward zero. -/
def pyInt (x : ℚ) : ℤ :=
  if 0 ≤ x then ⌊x⌋ else ⌈x⌉

/-- One lowercase hexadecimal digit, as emitted by the "%02x" format. -/
def hexDigit (n : ℕ) : Char :=
  if n < 10 then Char.ofNat ('0'.toNat + n)
  else Char.ofNat ('a'.toNat + (n - 10))

/-- The two-digit "%02x" rendering of one colour byte. -/
def byteHex (k : ℤ) : List Char :=
  [hexDigit (k.toNat / 16 % 16), hexDigit (k.toNat % 16)]

/-- Color.to_hex: f-string with three int(component * 255) bytes formatted
as 02x, preceded by a hash mark. -/
def Color.to_hex (c : Color) : List Char :=
  '#' :: (byteHex (pyInt (c.r * 255)) ++ byteHex (pyInt (c.g * 255)) ++ byteHex (pyInt (c.b * 255)))

/-- The value of one hexadecimal digit as accepted by Python int(s, 16). -/
def hexVal (c : Char) : Option ℕ :=
  if '0' ≤ c ∧ c ≤ '9' then some (c.toNat - '0'.toNat)
  else if 'a' ≤ c ∧ c ≤ 'f' then some (c.toNat - 'a'.toNat + 10)
  else if 'A' ≤ c ∧ c ≤ 'F' then some (c.toNat - 'A'.toNat + 10)
  else none

/-- int(s, 16) for a two-character slice; none models the ValueError. -/
def hexPair (a b : Char) : Option ℕ := do
  let x ← hexVal a
  let y ← hexVal b
  pure (x * 16 + y)

/-- Color.from_hex: strip leading hash marks (lstrip), require exactly six
characters, parse the three two-digit slices and divide by 255.0.  The
resulting components always lie in [0, 1], so pydantic validation of the
constructed Color cannot fail.  none models the raised ValueError. -/
def Color.from_hex (s : List Char) : Option Color := do
  let t := s.dropWhile (fun c => c = '#')
  match t with
  | [a, b, c, d, e, f] => do
    let r ← hexPair a b
    let g ← hexPair c d
    let bl ← hexPair e f
    pure ⟨(r : ℚ) / 255, (g : ℚ) / 255, (bl : ℚ) / 255⟩
  | _ => none

end Models

/-! ## Text measuring and fitting (core/text_utils.py)

The ReportLab canvas is abstracted as its stringWidth oracle
sw : content → font name → font size → width in points. -/

namespace TextUtils

/-- The type of the canvas stringWidth oracle. -/
abbrev StringWidth : Type := String → String → ℤ → ℚ

/-- TextMetrics (a pydantic model of measured text dimensions). -/
structure TextMetrics where
  width_pts : ℚ
  height_pts : ℚ
  line_count : ℕ
  fits_within_bounds : Bool
deriving DecidableEq, Repr

/-- calculate_line_height: 1.2 times the font size. -/
def calculate_line_height (font_size_pt : ℤ) : ℚ :=
  (font_size_pt : ℚ) * (6 / 5)

/-- Width of the widest line: max(stringWidth(line) for line in lines) if
lines else 0.0. -/
def widestLine (sw : StringWidth) (font_name : String) (font_size : ℤ) :
    List String → ℚ
  | [] => 0
  | l :: ls => (ls.map (fun t => sw t font_name font_size)).foldl max (sw l font_name font_size)

/-- measure_text. -/
def measure_text (sw : StringWidth) (content font_name : String)
    (font_size : ℤ) (max_width : ℚ) (max_height : Option ℚ)
    (lines : Option (List String)) : TextMetrics :=
  let (line_count, width_pts, height_pts) :=
    match lines with
    | some ls =>
      (ls.length, widestLine sw font_name font_size ls,
       calculate_line_height font_size * ls.length)
    | none => (1, sw content font_name font_size, calculate_line_height font_size)
  let fits_width := decide (width_pts ≤ max_width)
  let fits_height := match max_height with
    | none => true
    | some mh => decide (height_pts ≤ mh)
  ⟨width_pts, height_pts, line_count, fits_width && fits_height⟩

/-- The while-loop of shrink_to_fit: integer binary search, with the
midpoint computed by Python floor division.  The fuel argument only
bounds the iteration count: each pass shrinks the search interval by at
least one, so fuel equal to the initial interval length never runs out
(the loop lemmas below hold for any sufficient fuel). -/
def shrinkLoop (fits : ℤ → Bool) : ℕ → ℤ → ℤ → ℤ → ℤ
  | 0, _, _, best => best
  | fuel + 1, low, high, best =>
    if low ≤ high then
      let mid := (low + high) / 2
      if fits mid then shrinkLoop fits fuel (mid + 1) high mid
      else shrinkLoop fits fuel low (mid - 1) best
    else best

/-- shrink_to_fit: binary search over [min_size, initial_size] for the
largest size whose measured single-line width fits max_width. -/
def shrink_to_fit (sw : StringWidth) (content font_name : String)
    (initial_size : ℤ) (max_width : ℚ) (min_size : ℤ) : ℤ :=
  shrinkLoop
    (fun mid => (measure_text sw content font_name mid max_width none none).fits_within_bounds)
    (initial_size + 1 - min_size).toNat min_size initial_size min_size

/-- Python str.split(): words of a string, dropping whitespace runs. -/
def wordsAux : List Char → List Char → List String
  | buf, [] => if buf.isEmpty then [] else [String.mk buf.reverse]
  | buf, c :: rest =>
    if SvgPath.isSpaceChar c then
      if buf.isEmpty then wordsAux [] rest
      else String.mk buf.reverse :: wordsAux [] rest
    else wordsAux (c :: buf) rest

def splitWords (content : String) : List String :=
  wordsAux [] content.toList

/-- Python truthiness of the max_lines argument (None and 0 are falsy). -/
def mlTruthy : Option ℕ → Bool
  | none => false
  | some n => n ≠ 0

def mlVal : Option ℕ → ℕ
  | none => 0
  | some n => n

/-- The single-space join used for candidate and saved lines. -/
def joinWords (ws : List String) : String :=
  String.intercalate " " ws

/-- The for-loop of wrap_text.  Lines are kept as their word lists (the
source appends the space-joined string; joinWords is applied on output).
Returns (lines, current_line) at loop exit, which happens at the end of
the word list or as soon as the line cap is reached (the break). -/
def wrapLoop (sw : StringWidth) (font_name : String) (font_size : ℤ)
    (max_width : ℚ) (max_lines : Option ℕ) :
    List String → List (List String) → List String →
    List (List String) × List String
  | [], lines, current => (lines, current)
  | w :: ws, lines, current =>
    let test_line := joinWords (current ++ [w])
    let test_width := sw test_line font_name font_size
    let (lines', current') :=
      if test_width ≤ max_width then (lines, current ++ [w])
      else if ¬ current.isEmpty then (lines ++ [current], [w])
      else (lines ++ [[w]], current)
    if mlTruthy max_lines ∧ mlVal max_lines ≤ lines'.length then (lines', current')
    else wrapLoop sw font_name font_size max_width max_lines ws lines' current'

/-- wrap_text, at the level of word lists: run the loop, append the
remaining current line when the cap allows it, and trim to max_lines. -/
def wrapTextWords (sw : StringWidth) (font_name : String) (font_size : ℤ)
    (max_width : ℚ) (max_lines : Option ℕ) (words : List String) :
    List (List String) :=
  let (lines, current) := wrapLoop sw font_name font_size max_width max_lines words [] []
  let lines2 :=
    if ¬ current.isEmpty ∧ (¬ mlTruthy max_lines ∨ lines.length < mlVal max_lines)
    then lines ++ [current] else lines
  if mlTruthy max_lines then lines2.take (mlVal max_lines) else lines2

/-- wrap_text: split the content into words, wrap greedily, return the
space-joined lines. -/
def wrap_text (sw : StringWidth) (content font_name : String)
    (font_size : ℤ) (max_width : ℚ) (max_lines : Option ℕ) : List String :=
  (wrapTextWords sw font_name font_size max_width max_lines (splitWords content)).map joinWords

end TextUtils

/-! ## Text fitting in the renderer (renderers/reportlab_renderer.py)

Only the text-fitting pipeline and its effect on the TextElement are
modelled; the drawing calls touch nothing but the external canvas. -/

namespace Renderer

open TextUtils

/-- OverflowStrategy (core/models.py). -/
inductive OverflowStrategy
  | auto
  | shrink
  | wrap
  | truncate
deriving DecidableEq, Repr

/-- AdjustmentResult (core/models.py): the record of one text-fit
decision. -/
structure AdjustmentResult where
  was_adjusted : Bool
  strategy_applied : OverflowStrategy
  original_font_size : ℤ
  final_font_size : ℤ
  lines_used : ℕ
  content_truncated : Bool
deriving DecidableEq, Repr

/-- TextElement (core/models.py).  The adjustment field is the private
_adjustment_applied attribute (PrivateAttr, default None). -/
structure TextElement where
  id : String
  content : String
  x : ℚ
  y : ℚ
  width : Option ℚ
  font_family : String
  font_size : ℤ
  font_style : String
  alignment : String
  rotation : ℚ
  z_index : ℤ
  overflow_strategy : OverflowStrategy
  max_lines : Option ℕ
  min_font_size : ℤ
  adjustment : Option AdjustmentResult
deriving DecidableEq, Repr

/-- TextElement.get_adjustment_result. -/
def get_adjustment_result (t : TextElement) : Option AdjustmentResult :=
  t.adjustment

/-- TextElement.set_adjustment_result: the in-place mutation of the
private adjustment field, modelled as returning the updated element. -/
def set_adjustment_result (t : TextElement) (result : AdjustmentResult) : TextElement :=
  { t with adjustment := some result }

/-- Panel (core/models.py), reduced to its coordinate frame. -/
structure Panel where
  x : ℚ
  y : ℚ
  width : ℚ
  height : ℚ
  rotation : ℚ
deriving DecidableEq, Repr

/-- inches_to_points (utils/measurements.py): 72 points per inch. -/
def inches_to_points (i : ℚ) : ℚ := i * 72

/-- Python truthiness of an optional float field (None and 0.0 falsy). -/
def widthTruthy : Option ℚ → Bool
  | none => false
  | some q => q ≠ 0

/-- CardRenderer._get_font_name: family map plus style suffix. -/
def get_font_name (family style : String) : String :=
  let base_font :=
    if family.toLower = "helvetica" then "Helvetica"
    else if family.toLower = "times" then "Times-Roman"
    else if family.toLower = "courier" then "Courier"
    else family
  if style = "bold" then
    if base_font = "Times-Roman" then "Times-Bold" else base_font ++ "-Bold"
  else if style = "italic" then
    if base_font = "Times-Roman" then "Times-Italic"
    else if base_font = "Helvetica" then "Helvetica-Oblique"
    else base_font ++ "-Italic"
  else if style = "bold_italic" then
    if base_font = "Times-Roman" then "Times-BoldItalic"
    else if base_font = "Helvetica" then "Helvetica-BoldOblique"
    else base_font ++ "-BoldItalic"
  else base_font

/-- Python str.rstrip(). -/
def rstripStr (s : String) : String :=
  String.mk (s.toList.reverse.dropWhile SvgPath.isSpaceChar).reverse

/-- The character-dropping while-loop of _handle_text_overflow
(truncated = truncated[:-1] until the width fits or nothing is left).
Fuel equal to the string length never runs out. -/
def truncLoop (sw : StringWidth) (font_name : String) (font_size : ℤ)
    (available_width : ℚ) : ℕ → String → String
  | 0, s => s
  | fuel + 1, s =>
    if available_width < sw s font_name font_size ∧ 0 < s.length then
      truncLoop sw font_name font_size available_width fuel (String.mk s.toList.dropLast)
    else s

/-- CardRenderer._handle_text_overflow: truncate with a three-dot
ellipsis, reserving the ellipsis width. -/
def handle_text_overflow (sw : StringWidth) (content font_name : String)
    (font_size : ℤ) (max_width : ℚ) : String :=
  let text_width := sw content font_name font_size
  if text_width ≤ max_width then content
  else
    let ellipsis_width := sw "..." font_name font_size
    let available_width := max_width - ellipsis_width
    let truncated := truncLoop sw font_name font_size available_width content.length content
    rstripStr truncated ++ "..."

/-- CardRenderer._select_auto_strategy. -/
def select_auto_strategy (text : TextElement) : OverflowStrategy :=
  let text_length := text.content.length
  let has_height := text.width ≠ none
  if text_length < 30 then .shrink
  else if 30 ≤ text_length ∧ has_height then .wrap
  else .shrink

/-- CardRenderer._apply_shrink_strategy. -/
def apply_shrink_strategy (sw : StringWidth) (text : TextElement) : ℤ × String :=
  match text.width with
  | none => (text.font_size, text.content)
  | some w =>
    let font_name := get_font_name text.font_family text.font_style
    let max_width_pts := inches_to_points w
    let final_size :=
      shrink_to_fit sw text.content font_name text.font_size max_width_pts text.min_font_size
    if final_size = text.min_font_size then
      let metrics := measure_text sw text.content font_name final_size max_width_pts none none
      if ¬ metrics.fits_within_bounds then
        (final_size, handle_text_overflow sw text.content font_name final_size max_width_pts)
      else (final_size, text.content)
    else (final_size, text.content)

/-- The binary-search while-loop of _apply_wrap_strategy: look for the
largest font size at which the re-wrapped block fits the height bound.
Fuel equal to the initial interval length never runs out. -/
def wrapSearch (sw : StringWidth) (content font_name : String)
    (max_width max_height : ℚ) (max_lines : Option ℕ) :
    ℕ → ℤ → ℤ → ℤ → List String → ℤ × List String
  | 0, _, _, best_size, best_lines => (best_size, best_lines)
  | fuel + 1, low, high, best_size, best_lines =>
    if low ≤ high then
      let mid := (low + high) / 2
      let test_lines := wrap_text sw content font_name mid max_width max_lines
      let test_metrics :=
        measure_text sw content font_name mid max_width (some max_height) (some test_lines)
      if test_metrics.fits_within_bounds then
        wrapSearch sw content font_name max_width max_height max_lines fuel (mid + 1) high mid test_lines
      else
        wrapSearch sw content font_name max_width max_height max_lines fuel low (mid - 1) best_size best_lines
    else (best_size, best_lines)

/-- CardRenderer._apply_wrap_strategy.  max_height_pts is truthy exactly
when panel.height is (inches_to_points never maps a truthy height to
0.0). -/
def apply_wrap_strategy (sw : StringWidth) (text : TextElement) (panel : Panel) :
    ℤ × List String :=
  match text.width with
  | none => (text.font_size, [text.content])
  | some w =>
    let font_name := get_font_name text.font_family text.font_style
    let max_width_pts := inches_to_points w
    let font_size := text.font_size
    let lines := wrap_text sw text.content font_name font_size max_width_pts text.max_lines
    if widthTruthy text.width then
      if panel.height ≠ 0 then
        let max_height_pts := inches_to_points panel.height
        let metrics :=
          measure_text sw text.content font_name font_size max_width_pts
            (some max_height_pts) (some lines)
        if ¬ metrics.fits_within_bounds ∧ text.min_font_size < font_size then
          wrapSearch sw text.content font_name max_width_pts max_height_pts text.max_lines
            (font_size + 1 - text.min_font_size).toNat
            text.min_font_size font_size text.min_font_size lines
        else (font_size, lines)
      else (font_size, lines)
    else (font_size, lines)

/-- CardRenderer._apply_truncate_strategy. -/
def apply_truncate_strategy (sw : StringWidth) (text : TextElement) : ℤ × String :=
  match text.width with
  | none => (text.font_size, text.content)
  | some w =>
    let font_name := get_font_name text.font_family text.font_style
    let max_width_pts := inches_to_points w
    (text.font_size, handle_text_overflow sw text.content font_name text.font_size max_width_pts)

/-- Strategy resolution at the top of _fit_text_element. -/
def resolvedStrategy (text : TextElement) : OverflowStrategy :=
  if text.overflow_strategy = .auto then select_auto_strategy text
  else text.overflow_strategy

/-- CardRenderer._fit_text_element: apply the resolved strategy and build
the fresh AdjustmentResult.  The WRAP branch sets truncated = False
unconditionally. -/
def fit_text_element (sw : StringWidth) (text : TextElement) (panel : Panel) :
    ℤ × List String × AdjustmentResult :=
  let strategy := resolvedStrategy text
  let original_font_size := text.font_size
  let (final_size, lines, truncated) :=
    match strategy with
    | .shrink =>
      let (fs, content) := apply_shrink_strategy sw text
      (fs, [content], decide (content ≠ text.content) && content.endsWith "...")
    | .wrap =>
      let (fs, ls) := apply_wrap_strategy sw text panel
      (fs, ls, false)
    | .truncate =>
      let (fs, content) := apply_truncate_strategy sw text
      (fs, [content], decide (content ≠ text.content))
    | .auto => (text.font_size, [text.content], false)
  let was_adjusted :=
    decide (final_size ≠ original_font_size) || truncated || decide (1 < lines.length)
  (final_size, lines,
   ⟨was_adjusted, strategy, original_font_size, final_size, lines.length, truncated⟩)

/-- CardRenderer.render_text, restricted to its effect on the TextElement
argument: when the width field is truthy, the fitting result is recorded
on the element through set_adjustment_result; every other action of the
method draws on the external canvas only. -/
def render_text (sw : StringWidth) (text : TextElement) (panel : Panel) : TextElement :=
  if widthTruthy text.width then
    set_adjustment_result text (fit_text_element sw text panel).2.2
  else text

end Renderer

/-- Python float modulo x % m with m positive (floor convention). -/
def pymod {α : Type} [LinearOrderedField α] [FloorRing α] (x m : α) : α :=
  x - m * ⌊x / m⌋

/-! ## Decorative element expansion (core/decorative.py)

Child shapes are YAML dictionaries; each is modelled as a record carrying
every numeric key the transform reads (the source indexes the keys its
type discriminator selects), the optional rotation and z_index entries,
and the optional color strings. -/

namespace Decorative

/-- One child shape dictionary of a decorative element definition. -/
structure ShapeData where
  stype : String
  x : ℚ := 0
  y : ℚ := 0
  width : ℚ := 0
  height : ℚ := 0
  center_x : ℚ := 0
  center_y : ℚ := 0
  radius : ℚ := 0
  outer_radius : ℚ := 0
  inner_radius : ℚ := 0
  x1 : ℚ := 0
  y1 : ℚ := 0
  x2 : ℚ := 0
  y2 : ℚ := 0
  x3 : ℚ := 0
  y3 : ℚ := 0
  start_x : ℚ := 0
  start_y : ℚ := 0
  end_x : ℚ := 0
  end_y : ℚ := 0
  rotation : Option ℚ := none
  z_index : Option ℤ := none
  fill_color : Option String := none
  stroke_color : Option String := none
deriving DecidableEq, Repr

/-- DecorativeElement (core/models.py): an instance referencing a library
definition, with anchor, scale, rotation, z-index and palette
overrides. -/
structure DecorativeElement where
  name : String
  x : ℚ
  y : ℚ
  scale : ℚ
  rotation : ℚ
  z_index : ℤ
  color_palette : Option (List (String × String))
deriving DecidableEq, Repr

/-- DecorativeElementDefinition. -/
structure DecorativeElementDefinition where
  name : String
  description : String
  default_width : ℚ
  default_height : ℚ
  color_roles : List (String × String)
  shapes : List ShapeData
deriving DecidableEq, Repr

/-- The merged palette (defaults updated with the instance overrides)
as a lookup function, as built at the top of resolve_colors. -/
def paletteOf (defn : DecorativeElementDefinition)
    (color_palette : Option (List (String × String))) (role : String) : Option String :=
  match color_palette with
  | some overrides =>
    match overrides.lookup role with
    | some v => some v
    | none => defn.color_roles.lookup role
  | none => defn.color_roles.lookup role

def isBrace (c : Char) : Bool := c = '\x7b' ∨ c = '\x7d'

/-- Python str.strip of the two brace characters. -/
def strip_braces (s : String) : String :=
  String.mk ((s.toList.dropWhile isBrace).reverse.dropWhile isBrace).reverse

/-- Resolve one color entry: a string of the form with leading and
trailing braces is replaced by the palette value for its role when it has
one (palette.get(role, fill)). -/
def resolve_color_field (palette : String → Option String) :
    Option String → Option String
  | none => none
  | some f =>
    if f.startsWith "\x7b" ∧ f.endsWith "\x7d" then
      some ((palette (strip_braces f)).getD f)
    else some f

/-- DecorativeElementLibrary.resolve_colors. -/
def resolve_colors (defn : DecorativeElementDefinition)
    (color_palette : Option (List (String × String))) : List ShapeData :=
  defn.shapes.map (fun sd =>
    { sd with
      fill_color := resolve_color_field (paletteOf defn color_palette) sd.fill_color
      stroke_color := resolve_color_field (paletteOf defn color_palette) sd.stroke_color })

/-- The per-shape body of DecorativeElementLibrary.apply_transforms. -/
def apply_transform_shape (element : DecorativeElement) (sd : ShapeData) : ShapeData :=
  let scale := element.scale
  let s1 :=
    if sd.stype = "rectangle" then
      { sd with
        x := sd.x * scale + element.x
        y := sd.y * scale + element.y
        width := sd.width * scale
        height := sd.height * scale }
    else if sd.stype = "circle" then
      { sd with
        center_x := sd.center_x * scale + element.x
        center_y := sd.center_y * scale + element.y
        radius := sd.radius * scale }
    else if sd.stype = "triangle" then
      { sd with
        x1 := sd.x1 * scale + element.x
        y1 := sd.y1 * scale + element.y
        x2 := sd.x2 * scale + element.x
        y2 := sd.y2 * scale + element.y
        x3 := sd.x3 * scale + element.x
        y3 := sd.y3 * scale + element.y }
    else if sd.stype = "star" then
      { sd with
        center_x := sd.center_x * scale + element.x
        center_y := sd.center_y * scale + element.y
        outer_radius := sd.outer_radius * scale
        inner_radius := sd.inner_radius * scale }
    else if sd.stype = "line" then
      { sd with
        start_x := sd.start_x * scale + element.x
        start_y := sd.start_y * scale + element.y
        end_x := sd.end_x * scale + element.x
        end_y := sd.end_y * scale + element.y }
    else sd
  let current_rotation := s1.rotation.getD 0
  let s2 := { s1 with rotation := some (pymod (current_rotation + element.rotation) 360) }
  if s2.z_index = none then { s2 with z_index := some element.z_index } else s2

/-- DecorativeElementLibrary.apply_transforms. -/
def apply_transforms (shapes : List ShapeData) (element : DecorativeElement) :
    List ShapeData :=
  shapes.map (apply_transform_shape element)

/-- The pure core of DecorativeElementLibrary.expand_element: color
resolution followed by the transforms (the final step of the source
re-validates each dictionary into the pydantic Shape union). -/
def expand_shapes (defn : DecorativeElementDefinition) (element : DecorativeElement) :
    List ShapeData :=
  apply_transforms (resolve_colors defn element.color_palette) element

end Decorative

/-! ## Gradient endpoint computation (utils/gradient_utils.py) -/

namespace Gradient

/-- The math-module primitives used by gradient_endpoints, supplied as a
parameter so the definition stays executable; the theorems instantiate
them with the real cos, sin, sqrt and pi. -/
structure MathOps (α : Type) where
  cos : α → α
  sin : α → α
  sqrt : α → α
  pi : α

/-- gradient_endpoints: normalize the angle, convert to radians
(math.radians multiplies by pi / 180), take half the bounding-box
diagonal along the direction vector, and return the two points straddling
the box center. -/
def gradient_endpoints {α : Type} [LinearOrderedField α] [FloorRing α]
    (ops : MathOps α) (angle width height x_offset y_offset : α) :
    (α × α) × (α × α) :=
  let a := pymod angle 360
  let rad := a * ops.pi / 180
  let diagonal := ops.sqrt (width ^ 2 + height ^ 2)
  let dx := ops.cos rad * diagonal / 2
  let dy := ops.sin rad * diagonal / 2
  let center_x := x_offset + width / 2
  let center_y := y_offset + height / 2
  ((center_x - dx, center_y - dy), (center_x + dx, center_y + dy))

end Gradient

/-! ## Concrete instruments for witnesses -/

/-- A concrete stringWidth oracle for concrete evaluations: the width of a
string is its character count (monotone in neither font argument). -/
def swLen : TextUtils.StringWidth := fun t _ _ => (t.length : ℚ)

/-- A concrete stringWidth oracle proportional to both the character count
and the font size; monotone in the font size. -/
def swProp : TextUtils.StringWidth := fun t _ sz => (t.length : ℚ) * (sz : ℚ)

/-- A concrete TextElement for witnesses: short content, a truthy width of
1/36 inch (2 points), an explicit WRAP strategy and a one-line cap. -/
def teWrap : Renderer.TextElement :=
  { id := "t1", content := "aa bb cc", x := 0, y := 0, width := some (1 / 36)
    font_family := "Helvetica", font_size := 12, font_style := "normal"
    alignment := "left", rotation := 0, z_index := 100
    overflow_strategy := .wrap, max_lines := some 1, min_font_size := 8
    adjustment := none }

/-- A concrete panel whose height is falsy (0), so the wrap strategy skips
the height-driven font search. -/
def panelFlat : Renderer.Panel :=
  { x := 0, y := 0, width := 5, height := 0, rotation := 0 }

/-- A concrete decorative instance at anchor (1, 2) with scale 2. -/
def elemScale2 : Decorative.DecorativeElement :=
  { name := "tree", x := 1, y := 2, scale := 2, rotation := 90, z_index := 5
    color_palette := none }

/-- A concrete rectangle child shape (no explicit rotation or z-index). -/
def rectShape : Decorative.ShapeData :=
  { stype := "rectangle", x := 3, y := 1, width := 4, height := 6 }

/-! ## Theorems -/

namespace SvgPath

theorem parse_command_mismatch {c : Char} {params : List ℚ}
    (hc : isCmdChar c = true) (hk : expectedParamCount c ≠ 0)
    (hmod : params.length % expectedParamCount c ≠ 0) :
    parse_command c params = .error .valueError := by
  have hne : params.length ≠ expectedParamCount c := by
    intro he; apply hmod; rw [he]; exact Nat.mod_self _
  unfold parse_command
  simp [hc, hne, hk, hmod]

theorem parse_command_nil_params {c : Char} (hc : isCmdChar c = true) :
    parse_command c [] = .ok ⟨c, []⟩ := by
  unfold parse_command
  by_cases hz : expectedParamCount c = 0 <;> simp [hc, hz]

end SvgPath

/-- C9: the path parser is not total as an error-returning function: on
"M 0 0 Z 5" the Z command receives one numeric parameter, the
parameter-count check computes len(params) % 0, and the resulting
ZeroDivisionError is not a ValueError, so it escapes the
graceful-degradation handler in parse and aborts the whole parse. -/
theorem C9_close_with_params_divides_by_zero :
    SvgPath.parse "M 0 0 Z 5" = .error .zeroDivisionError := by decide

/-- C2 counterexample: "L 1 2 3 M 4 5" gives the L command three numeric
parameters, which is not a positive integer multiple of its required
count 2, yet the parse of the whole string does not fail: the L command
is skipped and the remaining command list is returned. -/
theorem C2_counterexample_mismatch_does_not_fail :
    SvgPath.parse "L 1 2 3 M 4 5" = .ok [⟨'M', [4, 5]⟩] := by decide

/-- C2 (amended): a command whose numeric parameter count is nonzero and
not a multiple of its required count k raises a ValueError that the parse
loop catches: the command is dropped with a warning and parsing continues
with the remaining segments.  A parameter count of zero is always
accepted (zero is a multiple of every k). -/
theorem C2_mismatched_count_skips_command :
    (∀ (c : Char) (pseg : List Char) (rest : List (List Char)),
      SvgPath.isCmdChar c = true →
      SvgPath.is_command pseg = false →
      SvgPath.expectedParamCount c ≠ 0 →
      (SvgPath.parse_numbers pseg).length % SvgPath.expectedParamCount c ≠ 0 →
      SvgPath.parseLoop ([c] :: pseg :: rest) = SvgPath.parseLoop rest) ∧
    (∀ c : Char, SvgPath.isCmdChar c = true →
      SvgPath.parse_command c [] = .ok ⟨c, []⟩) := by
  constructor
  · intro c pseg rest hc hp hk hmod
    have hpc : SvgPath.parse_command c (SvgPath.parse_numbers pseg) = .error .valueError :=
      SvgPath.parse_command_mismatch hc hk hmod
    simp [SvgPath.parseLoop, hc, hp, SvgPath.consumeCmd, hpc]
  · intro c hc
    exact SvgPath.parse_command_nil_params hc

/-- Closed instance of C2_mismatched_count_skips_command: the L command
with parameters 1 2 3 is dropped, and a Z command with no parameters is
accepted. -/
theorem C2_mismatched_count_skips_command_witness :
    SvgPath.parseLoop ([['L'], ['1', ' ', '2', ' ', '3']]) = SvgPath.parseLoop [] ∧
    SvgPath.parse_command 'Z' [] = .ok ⟨'Z', []⟩ :=
  ⟨C2_mismatched_count_skips_command.1 'L' ['1', ' ', '2', ' ', '3'] []
      (by decide) (by decide) (by decide) (by decide),
   C2_mismatched_count_skips_command.2 'Z' (by decide)⟩

/-- C3 counterexample: "X 1 2 M 3 4" contains the unsupported letter X;
instead of skipping it with a warning and returning the parse of the
remaining "M 3 4", the parser aborts the whole parse with the
expected-command ValueError. -/
theorem C3_counterexample_unknown_letter_aborts :
    SvgPath.parse "X 1 2 M 3 4" =
      .error (.expectedCommand ['X', ' ', '1', ' ', '2']) := by decide

/-- C3 (amended): a letter outside the supported set is never skipped
with a warning.  The split pattern only separates supported letters, so
an unknown letter either lands in command position inside a non-command
segment, aborting the whole parse with a ValueError, or is silently
absorbed into the parameter text of the preceding command, contributing
nothing to its numeric parameters. -/
theorem C3_unknown_letter_aborts_or_absorbed :
    (∀ (seg : List Char) (rest : List (List Char)),
      SvgPath.is_command seg = false →
      SvgPath.parseLoop (seg :: rest) = .error (.expectedCommand seg)) ∧
    SvgPath.parse "M 0 0 X 5 5" = .ok [⟨'M', [0, 0, 5, 5]⟩] := by
  constructor
  · intro seg rest hseg
    rcases seg with _ | ⟨c, cs⟩
    · cases rest <;> simp [SvgPath.parseLoop]
    · rcases cs with _ | ⟨c2, cs2⟩
      · have hc : SvgPath.isCmdChar c = false := by
          simpa [SvgPath.is_command] using hseg
        cases rest <;> simp [SvgPath.parseLoop, hc]
      · cases rest <;> simp [SvgPath.parseLoop]
  · decide

/-- Closed instance of C3_unknown_letter_aborts_or_absorbed at the
segment list of "X 5 5". -/
theorem C3_unknown_letter_aborts_witness :
    SvgPath.parseLoop [['X', ' ', '5', ' ', '5']] =
      .error (.expectedCommand ['X', ' ', '5', ' ', '5']) :=
  C3_unknown_letter_aborts_or_absorbed.1 ['X', ' ', '5', ' ', '5'] [] (by decide)

namespace Models

theorem hexPair_byteHex {k : ℕ} (hk : k < 256) :
    hexPair (hexDigit (k / 16 % 16)) (hexDigit (k % 16)) = some k := by
  have h1 : k / 16 % 16 = k / 16 := by omega
  have hv : ∀ n : ℕ, n < 16 → hexVal (hexDigit n) = some n := by decide
  have h2 : hexVal (hexDigit (k / 16 % 16)) = some (k / 16) := by
    rw [h1]; exact hv _ (by omega)
  have h3 : hexVal (hexDigit (k % 16)) = some (k % 16) := hv _ (by omega)
  simp [hexPair, h2, h3]
  omega

theorem hexDigit_ne_hash {n : ℕ} (hn : n < 16) : (hexDigit n = '#') = False := by
  revert hn
  revert n
  decide

/-- One component: truncating x * 255 to an integer and dividing by 255
loses strictly less than 1/255, and the byte stays in [0, 256). -/
theorem byte_roundtrip {x : ℚ} (h0 : 0 ≤ x) (h1 : x ≤ 1) :
    ∃ k : ℕ, k < 256 ∧ pyInt (x * 255) = (k : ℤ) ∧ |((k : ℚ) / 255) - x| < 1 / 255 := by
  have hx0 : (0 : ℚ) ≤ x * 255 := by positivity
  have hfl : pyInt (x * 255) = ⌊x * 255⌋ := by simp [pyInt, hx0]
  have hge : (0 : ℤ) ≤ ⌊x * 255⌋ := Int.floor_nonneg.mpr hx0
  have hle : ⌊x * 255⌋ ≤ 255 := by
    have : x * 255 ≤ 255 := by nlinarith
    calc ⌊x * 255⌋ ≤ ⌊(255 : ℚ)⌋ := Int.floor_le_floor this
    _ = 255 := by norm_num
  refine ⟨⌊x * 255⌋.toNat, by omega, by rw [hfl]; omega, ?_⟩
  have hq : ((⌊x * 255⌋.toNat : ℕ) : ℚ) = ((⌊x * 255⌋ : ℤ) : ℚ) := by
    rw [← Int.cast_natCast]
    congr 1
    exact Int.toNat_of_nonneg hge
  have hflo : ((⌊x * 255⌋ : ℤ) : ℚ) ≤ x * 255 := Int.floor_le _
  have hflt : x * 255 < ((⌊x * 255⌋ : ℤ) : ℚ) + 1 := Int.lt_floor_add_one _
  rw [abs_lt, hq]
  constructor <;> nlinarith

end Models

/-- C6: for every valid Color (all components in [0, 1]), from_hex of
to_hex succeeds and returns a color each of whose components differs
from the original by strictly less than 1/255 (to_hex truncates each
component times 255 to an integer byte; from_hex divides it back). -/
theorem C6_color_hex_roundtrip (c : Models.Color) (h : c.valid) :
    ∃ c' : Models.Color, Models.Color.from_hex (Models.Color.to_hex c) = some c' ∧
      |c'.r - c.r| < 1 / 255 ∧ |c'.g - c.g| < 1 / 255 ∧ |c'.b - c.b| < 1 / 255 := by
  obtain ⟨hr0, hr1, hg0, hg1, hb0, hb1⟩ := h
  obtain ⟨kr, hkr, hkr2, hkr3⟩ := Models.byte_roundtrip hr0 hr1
  obtain ⟨kg, hkg, hkg2, hkg3⟩ := Models.byte_roundtrip hg0 hg1
  obtain ⟨kb, hkb, hkb2, hkb3⟩ := Models.byte_roundtrip hb0 hb1
  refine ⟨⟨(kr : ℚ) / 255, (kg : ℚ) / 255, (kb : ℚ) / 255⟩, ?_, hkr3, hkg3, hkb3⟩
  unfold Models.Color.from_hex Models.Color.to_hex
  rw [hkr2, hkg2, hkb2]
  simp only [Models.byteHex, Int.toNat_ofNat]
  rw [List.dropWhile]
  simp only [decide_True, List.cons_append, List.nil_append]
  rw [List.dropWhile]
  simp [Models.hexDigit_ne_hash (show kr / 16 % 16 < 16 by omega),
        Models.hexPair_byteHex hkr, Models.hexPair_byteHex hkg, Models.hexPair_byteHex hkb]

/-- Closed instance of C6_color_hex_roundtrip at the color
(0.3, 0.5, 1.0). -/
theorem C6_color_hex_roundtrip_witness :
    ∃ c' : Models.Color,
      Models.Color.from_hex (Models.Color.to_hex ⟨3 / 10, 1 / 2, 1⟩) = some c' ∧
      |c'.r - 3 / 10| < 1 / 255 ∧ |c'.g - 1 / 2| < 1 / 255 ∧ |c'.b - 1| < 1 / 255 :=
  C6_color_hex_roundtrip ⟨3 / 10, 1 / 2, 1⟩ (by norm_num [Models.Color.valid])

namespace Gradient

/-- gradient_endpoints with the real trigonometric primitives returns the
pair of points straddling the box center along (cos, sin) of the angle by
half the diagonal; its midpoint is the center and its length the
diagonal. -/
theorem gradient_endpoints_spec (angle width height x_offset y_offset : ℝ) :
    let ep := Gradient.gradient_endpoints ⟨Real.cos, Real.sin, Real.sqrt, Real.pi⟩
      angle width height x_offset y_offset
    let diag := Real.sqrt (width ^ 2 + height ^ 2)
    let dx := Real.cos (angle * Real.pi / 180) * diag / 2
    let dy := Real.sin (angle * Real.pi / 180) * diag / 2
    let cx := x_offset + width / 2
    let cy := y_offset + height / 2
    ep = ((cx - dx, cy - dy), (cx + dx, cy + dy)) ∧
    ((ep.1.1 + ep.2.1) / 2 = cx ∧ (ep.1.2 + ep.2.2) / 2 = cy) ∧
    Real.sqrt ((ep.2.1 - ep.1.1) ^ 2 + (ep.2.2 - ep.1.2) ^ 2) = diag := by
  intro ep diag dx dy cx cy
  have harg : (angle - 360 * ⌊angle / 360⌋) * Real.pi / 180 =
      angle * Real.pi / 180 - (⌊angle / 360⌋ : ℤ) * (2 * Real.pi) := by
    ring
  have hcos : Real.cos ((angle - 360 * ⌊angle / 360⌋) * Real.pi / 180) =
      Real.cos (angle * Real.pi / 180) := by
    rw [harg, Real.cos_sub_int_mul_two_pi]
  have hsin : Real.sin ((angle - 360 * ⌊angle / 360⌋) * Real.pi / 180) =
      Real.sin (angle * Real.pi / 180) := by
    rw [harg, Real.sin_sub_int_mul_two_pi]
  have hep : ep = ((cx - dx, cy - dy), (cx + dx, cy + dy)) := by
    show gradient_endpoints _ _ _ _ _ _ = _
    unfold gradient_endpoints pymod
    simp only [hcos, hsin]
  refine ⟨hep, ?_, ?_⟩
  · rw [hep]
    refine ⟨?_, ?_⟩
    · show (cx - dx + (cx + dx)) / 2 = cx
      ring
    · show (cy - dy + (cy + dy)) / 2 = cy
      ring
  · rw [hep]
    show Real.sqrt ((cx + dx - (cx - dx)) ^ 2 + (cy + dy - (cy - dy)) ^ 2) = diag
    have e1 : cx + dx - (cx - dx) = 2 * dx := by ring
    have e2 : cy + dy - (cy - dy) = 2 * dy := by ring
    have hsq : (2 * dx) ^ 2 + (2 * dy) ^ 2 = diag ^ 2 := by
      show (2 * (Real.cos (angle * Real.pi / 180) * diag / 2)) ^ 2 +
          (2 * (Real.sin (angle * Real.pi / 180) * diag / 2)) ^ 2 = diag ^ 2
      have hpyth := Real.sin_sq_add_cos_sq (angle * Real.pi / 180)
      linear_combination diag ^ 2 * hpyth
    rw [e1, e2, hsq]
    exact Real.sqrt_sq (Real.sqrt_nonneg _)

end Gradient

/-- C8: for every angle and bounding box, gradient_endpoints (with the
real cos, sin, sqrt and pi) returns exactly (center - d, center + d)
where center is the box center and d points along (cos θ, sin θ) of the
angle in radians with magnitude half the box diagonal (the initial
mod-360 normalization does not change cos or sin); hence the segment's
midpoint is the box center and its length equals the box diagonal for
every aspect ratio. -/
theorem C8_gradient_endpoints_centered_diagonal
    (angle width height x_offset y_offset : ℝ) :
    Gradient.gradient_endpoints ⟨Real.cos, Real.sin, Real.sqrt, Real.pi⟩
        angle width height x_offset y_offset =
      ((x_offset + width / 2 -
          Real.cos (angle * Real.pi / 180) * Real.sqrt (width ^ 2 + height ^ 2) / 2,
        y_offset + height / 2 -
          Real.sin (angle * Real.pi / 180) * Real.sqrt (width ^ 2 + height ^ 2) / 2),
       (x_offset + width / 2 +
          Real.cos (angle * Real.pi / 180) * Real.sqrt (width ^ 2 + height ^ 2) / 2,
        y_offset + height / 2 +
          Real.sin (angle * Real.pi / 180) * Real.sqrt (width ^ 2 + height ^ 2) / 2)) ∧
    ((Gradient.gradient_endpoints ⟨Real.cos, Real.sin, Real.sqrt, Real.pi⟩
          angle width height x_offset y_offset).1.1 +
        (Gradient.gradient_endpoints ⟨Real.cos, Real.sin, Real.sqrt, Real.pi⟩
          angle width height x_offset y_offset).2.1) / 2 = x_offset + width / 2 ∧
    ((Gradient.gradient_endpoints ⟨Real.cos, Real.sin, Real.sqrt, Real.pi⟩
          angle width height x_offset y_offset).1.2 +
        (Gradient.gradient_endpoints ⟨Real.cos, Real.sin, Real.sqrt, Real.pi⟩
          angle width height x_offset y_offset).2.2) / 2 = y_offset + height / 2 ∧
    Real.sqrt
        (((Gradient.gradient_endpoints ⟨Real.cos, Real.sin, Real.sqrt, Real.pi⟩
              angle width height x_offset y_offset).2.1 -
            (Gradient.gradient_endpoints ⟨Real.cos, Real.sin, Real.sqrt, Real.pi⟩
              angle width height x_offset y_offset).1.1) ^ 2 +
          ((Gradient.gradient_endpoints ⟨Real.cos, Real.sin, Real.sqrt, Real.pi⟩
              angle width height x_offset y_offset).2.2 -
            (Gradient.gradient_endpoints ⟨Real.cos, Real.sin, Real.sqrt, Real.pi⟩
              angle width height x_offset y_offset).1.2) ^ 2) =
      Real.sqrt (width ^ 2 + height ^ 2) := by
  obtain ⟨h1, ⟨h2, h3⟩, h4⟩ :=
    Gradient.gradient_endpoints_spec angle width height x_offset y_offset
  exact ⟨h1, h2, h3, h4⟩

namespace Decorative

theorem transform_keeps_colors (element : DecorativeElement) (sd : ShapeData) :
    (apply_transform_shape element sd).fill_color = sd.fill_color ∧
    (apply_transform_shape element sd).stroke_color = sd.stroke_color := by
  unfold apply_transform_shape
  dsimp only
  split_ifs <;> simp

theorem transform_rectangle (element : DecorativeElement) (sd : ShapeData)
    (h : sd.stype = "rectangle") :
    (apply_transform_shape element sd).x = sd.x * element.scale + element.x ∧
    (apply_transform_shape element sd).y = sd.y * element.scale + element.y ∧
    (apply_transform_shape element sd).width = sd.width * element.scale ∧
    (apply_transform_shape element sd).height = sd.height * element.scale := by
  unfold apply_transform_shape
  dsimp only
  split_ifs <;> simp_all

theorem transform_circle (element : DecorativeElement) (sd : ShapeData)
    (h : sd.stype = "circle") :
    (apply_transform_shape element sd).center_x = sd.center_x * element.scale + element.x ∧
    (apply_transform_shape element sd).center_y = sd.center_y * element.scale + element.y ∧
    (apply_transform_shape element sd).radius = sd.radius * element.scale := by
  unfold apply_transform_shape
  dsimp only
  split_ifs <;> simp_all

theorem transform_triangle (element : DecorativeElement) (sd : ShapeData)
    (h : sd.stype = "triangle") :
    (apply_transform_shape element sd).x1 = sd.x1 * element.scale + element.x ∧
    (apply_transform_shape element sd).y1 = sd.y1 * element.scale + element.y ∧
    (apply_transform_shape element sd).x2 = sd.x2 * element.scale + element.x ∧
    (apply_transform_shape element sd).y2 = sd.y2 * element.scale + element.y ∧
    (apply_transform_shape element sd).x3 = sd.x3 * element.scale + element.x ∧
    (apply_transform_shape element sd).y3 = sd.y3 * element.scale + element.y := by
  unfold apply_transform_shape
  dsimp only
  split_ifs <;> simp_all

theorem transform_star (element : DecorativeElement) (sd : ShapeData)
    (h : sd.stype = "star") :
    (apply_transform_shape element sd).center_x = sd.center_x * element.scale + element.x ∧
    (apply_transform_shape element sd).center_y = sd.center_y * element.scale + element.y ∧
    (apply_transform_shape element sd).outer_radius = sd.outer_radius * element.scale ∧
    (apply_transform_shape element sd).inner_radius = sd.inner_radius * element.scale := by
  unfold apply_transform_shape
  dsimp only
  split_ifs <;> simp_all

theorem transform_line (element : DecorativeElement) (sd : ShapeData)
    (h : sd.stype = "line") :
    (apply_transform_shape element sd).start_x = sd.start_x * element.scale + element.x ∧
    (apply_transform_shape element sd).start_y = sd.start_y * element.scale + element.y ∧
    (apply_transform_shape element sd).end_x = sd.end_x * element.scale + element.x ∧
    (apply_transform_shape element sd).end_y = sd.end_y * element.scale + element.y := by
  unfold apply_transform_shape
  dsimp only
  split_ifs <;> simp_all

theorem transform_rotation (element : DecorativeElement) (sd : ShapeData) :
    (apply_transform_shape element sd).rotation =
      some (pymod (sd.rotation.getD 0 + element.rotation) 360) := by
  unfold apply_transform_shape
  dsimp only
  split_ifs <;> simp_all

theorem transform_z_index_none (element : DecorativeElement) (sd : ShapeData)
    (h : sd.z_index = none) :
    (apply_transform_shape element sd).z_index = some element.z_index := by
  unfold apply_transform_shape
  dsimp only
  split_ifs <;> simp_all

theorem transform_z_index_some (element : DecorativeElement) (sd : ShapeData)
    (z : ℤ) (h : sd.z_index = some z) :
    (apply_transform_shape element sd).z_index = some z := by
  unfold apply_transform_shape
  dsimp only
  split_ifs <;> simp_all

end Decorative

/-- C7: decorative expansion maps, for each shape kind's field set, every
positional field p to p * scale + anchor and every size field to
size * scale; it sets the child rotation to (child + instance) mod 360;
it gives the instance z-index to a child without one and keeps an
explicit one; at scale 2 every linear dimension doubles relative to the
anchor; and the resolved color fields of the expansion are independent of
the instance scale. -/
theorem C7_decorative_expansion (element : Decorative.DecorativeElement)
    (sd : Decorative.ShapeData) :
    let s' := Decorative.apply_transform_shape element sd
    (sd.stype = "rectangle" →
      s'.x = sd.x * element.scale + element.x ∧
      s'.y = sd.y * element.scale + element.y ∧
      s'.width = sd.width * element.scale ∧
      s'.height = sd.height * element.scale) ∧
    (sd.stype = "circle" →
      s'.center_x = sd.center_x * element.scale + element.x ∧
      s'.center_y = sd.center_y * element.scale + element.y ∧
      s'.radius = sd.radius * element.scale) ∧
    (sd.stype = "triangle" →
      s'.x1 = sd.x1 * element.scale + element.x ∧
      s'.y1 = sd.y1 * element.scale + element.y ∧
      s'.x2 = sd.x2 * element.scale + element.x ∧
      s'.y2 = sd.y2 * element.scale + element.y ∧
      s'.x3 = sd.x3 * element.scale + element.x ∧
      s'.y3 = sd.y3 * element.scale + element.y) ∧
    (sd.stype = "star" →
      s'.center_x = sd.center_x * element.scale + element.x ∧
      s'.center_y = sd.center_y * element.scale + element.y ∧
      s'.outer_radius = sd.outer_radius * element.scale ∧
      s'.inner_radius = sd.inner_radius * element.scale) ∧
    (sd.stype = "line" →
      s'.start_x = sd.start_x * element.scale + element.x ∧
      s'.start_y = sd.start_y * element.scale + element.y ∧
      s'.end_x = sd.end_x * element.scale + element.x ∧
      s'.end_y = sd.end_y * element.scale + element.y) ∧
    s'.rotation = some (pymod (sd.rotation.getD 0 + element.rotation) 360) ∧
    (sd.z_index = none → s'.z_index = some element.z_index) ∧
    (∀ z : ℤ, sd.z_index = some z → s'.z_index = some z) ∧
    (element.scale = 2 → sd.stype = "rectangle" →
      s'.x - element.x = 2 * sd.x ∧ s'.y - element.y = 2 * sd.y ∧
      s'.width = 2 * sd.width ∧ s'.height = 2 * sd.height) ∧
    (∀ σ : ℚ, ∀ defn : Decorative.DecorativeElementDefinition,
      (Decorative.expand_shapes defn { element with scale := σ }).map
          (fun s => (s.fill_color, s.stroke_color)) =
        (Decorative.resolve_colors defn element.color_palette).map
          (fun s => (s.fill_color, s.stroke_color))) := by
  intro s'
  refine ⟨Decorative.transform_rectangle element sd,
    Decorative.transform_circle element sd,
    Decorative.transform_triangle element sd,
    Decorative.transform_star element sd,
    Decorative.transform_line element sd,
    Decorative.transform_rotation element sd,
    Decorative.transform_z_index_none element sd,
    fun z hz => Decorative.transform_z_index_some element sd z hz,
    ?_, ?_⟩
  · intro hs h
    obtain ⟨hx, hy, hw, hh⟩ := Decorative.transform_rectangle element sd h
    refine ⟨?_, ?_, ?_, ?_⟩
    · show (Decorative.apply_transform_shape element sd).x - element.x = 2 * sd.x
      rw [hx, hs]; ring
    · show (Decorative.apply_transform_shape element sd).y - element.y = 2 * sd.y
      rw [hy, hs]; ring
    · show (Decorative.apply_transform_shape element sd).width = 2 * sd.width
      rw [hw, hs]; ring
    · show (Decorative.apply_transform_shape element sd).height = 2 * sd.height
      rw [hh, hs]; ring
  · intro σ defn
    unfold Decorative.expand_shapes Decorative.apply_transforms
    rw [List.map_map]
    have hres : Decorative.resolve_colors defn
        ({ element with scale := σ } : Decorative.DecorativeElement).color_palette =
        Decorative.resolve_colors defn element.color_palette := rfl
    rw [hres]
    apply List.map_congr_left
    intro a _
    exact Prod.ext
      (Decorative.transform_keeps_colors { element with scale := σ } a).1
      (Decorative.transform_keeps_colors { element with scale := σ } a).2

/-- Closed instance of C7_decorative_expansion: a rectangle child at
(3, 1) of size 4 by 6, expanded with scale 2 at anchor (1, 2), instance
rotation 90 and z-index 5. -/
theorem C7_decorative_expansion_witness :
    (Decorative.apply_transform_shape elemScale2 rectShape).x = 7 ∧
    (Decorative.apply_transform_shape elemScale2 rectShape).width = 8 ∧
    (Decorative.apply_transform_shape elemScale2 rectShape).rotation = some 90 ∧
    (Decorative.apply_transform_shape elemScale2 rectShape).z_index = some 5 := by
  obtain ⟨hrect, -, -, -, -, hrot, hz, -, -, -⟩ :=
    C7_decorative_expansion elemScale2 rectShape
  obtain ⟨hx, -, hw, -⟩ := hrect rfl
  refine ⟨?_, ?_, ?_, ?_⟩
  · rw [hx]; norm_num [rectShape, elemScale2]
  · rw [hw]; norm_num [rectShape, elemScale2]
  · rw [hrot]
    norm_num [rectShape, elemScale2, pymod]
  · exact hz rfl

/-- C10: whenever the resolved overflow strategy is WRAP,
_fit_text_element reports content_truncated = False in its
AdjustmentResult, regardless of how many words wrap_text dropped to
honor the line cap. -/
theorem C10_wrap_never_reports_truncation (sw : TextUtils.StringWidth)
    (text : Renderer.TextElement) (panel : Renderer.Panel)
    (h : Renderer.resolvedStrategy text = .wrap) :
    (Renderer.fit_text_element sw text panel).2.2.content_truncated = false := by
  unfold Renderer.fit_text_element
  rw [h]

/-- Closed instance of C10_wrap_never_reports_truncation: teWrap resolves
to WRAP, its one-line cap makes wrap_text drop the words bb and cc, and
content_truncated is still false. -/
theorem C10_wrap_never_reports_truncation_witness :
    Renderer.resolvedStrategy teWrap = .wrap ∧
    (Renderer.fit_text_element swLen teWrap panelFlat).2.1 = ["aa"] ∧
    (Renderer.fit_text_element swLen teWrap panelFlat).2.2.content_truncated = false :=
  ⟨by decide, by with_unfolding_all decide,
   C10_wrap_never_reports_truncation swLen teWrap panelFlat (by decide)⟩

/-- C1 counterexample: rendering teWrap (whose width is truthy and whose
recorded adjustment is still None) changes the element's observable
state: get_adjustment_result flips from None to the fresh
AdjustmentResult, so the element is not identical before and after the
call. -/
theorem C1_counterexample_render_text_mutates :
    Renderer.render_text swLen teWrap panelFlat ≠ teWrap ∧
    Renderer.get_adjustment_result teWrap = none ∧
    Renderer.get_adjustment_result (Renderer.render_text swLen teWrap panelFlat) ≠ none := by
  refine ⟨?_, rfl, ?_⟩ <;> with_unfolding_all decide

/-- C1 (amended): render_text computes the final font size, lines and
AdjustmentResult without changing any public field of its TextElement
input, but it is not pure on the element: when the width is truthy its
sole element-side effect is to overwrite the private adjustment field
with the freshly computed AdjustmentResult (via set_adjustment_result);
when the width is falsy the element is returned unchanged. -/
theorem C1_render_text_touches_only_adjustment (sw : TextUtils.StringWidth)
    (text : Renderer.TextElement) (panel : Renderer.Panel) :
    ((Renderer.render_text sw text panel).id = text.id ∧
     (Renderer.render_text sw text panel).content = text.content ∧
     (Renderer.render_text sw text panel).x = text.x ∧
     (Renderer.render_text sw text panel).y = text.y ∧
     (Renderer.render_text sw text panel).width = text.width ∧
     (Renderer.render_text sw text panel).font_family = text.font_family ∧
     (Renderer.render_text sw text panel).font_size = text.font_size ∧
     (Renderer.render_text sw text panel).font_style = text.font_style ∧
     (Renderer.render_text sw text panel).alignment = text.alignment ∧
     (Renderer.render_text sw text panel).rotation = text.rotation ∧
     (Renderer.render_text sw text panel).z_index = text.z_index ∧
     (Renderer.render_text sw text panel).overflow_strategy = text.overflow_strategy ∧
     (Renderer.render_text sw text panel).max_lines = text.max_lines ∧
     (Renderer.render_text sw text panel).min_font_size = text.min_font_size) ∧
    (Renderer.widthTruthy text.width = true →
      (Renderer.render_text sw text panel).adjustment =
        some (Renderer.fit_text_element sw text panel).2.2) ∧
    (Renderer.widthTruthy text.width = false →
      Renderer.render_text sw text panel = text) := by
  unfold Renderer.render_text Renderer.set_adjustment_result
  rcases hw : Renderer.widthTruthy text.width <;> simp [hw]

/-- Closed instance of C1_render_text_touches_only_adjustment at teWrap:
the content is untouched and the adjustment field receives the computed
result. -/
theorem C1_render_text_touches_only_adjustment_witness :
    (Renderer.render_text swLen teWrap panelFlat).content = teWrap.content ∧
    (Renderer.render_text swLen teWrap panelFlat).adjustment =
      some (Renderer.fit_text_element swLen teWrap panelFlat).2.2 :=
  ⟨(C1_render_text_touches_only_adjustment swLen teWrap panelFlat).1.2.1,
   (C1_render_text_touches_only_adjustment swLen teWrap panelFlat).2.1
     (by with_unfolding_all decide)⟩

namespace TextUtils

/-- With no lines and no height bound, measure_text fits exactly when the
single-line width does. -/
theorem measure_text_none_fits (sw : StringWidth) (content font_name : String)
    (m : ℤ) (w : ℚ) :
    (measure_text sw content font_name m w none none).fits_within_bounds =
      decide (sw content font_name m ≤ w) := by
  simp [measure_text]

/-- The binary-search loop with a downward-closed fitting predicate
returns the default when nothing in [low, high] fits, and otherwise the
greatest fitting size of the interval: the result is the default or a
fitting member of the interval, and it is an upper bound of every fitting
member. -/
theorem shrinkLoop_spec (fits : ℤ → Bool)
    (hdc : ∀ s t : ℤ, s ≤ t → fits t = true → fits s = true) :
    ∀ (fuel : ℕ) (low high best : ℤ), (high + 1 - low).toNat ≤ fuel →
      (shrinkLoop fits fuel low high best = best ∨
        (low ≤ shrinkLoop fits fuel low high best ∧
         shrinkLoop fits fuel low high best ≤ high ∧
         fits (shrinkLoop fits fuel low high best) = true)) ∧
      (∀ s : ℤ, low ≤ s → s ≤ high → fits s = true →
        s ≤ shrinkLoop fits fuel low high best) := by
  intro fuel
  induction fuel with
  | zero =>
    intro low high best hf
    refine ⟨Or.inl rfl, ?_⟩
    intro s hs1 hs2 _
    omega
  | succ n ih =>
    intro low high best hf
    by_cases hlh : low ≤ high
    · by_cases hfit : fits ((low + high) / 2) = true
      · have heq : shrinkLoop fits (n + 1) low high best =
            shrinkLoop fits n ((low + high) / 2 + 1) high ((low + high) / 2) := by
          rw [shrinkLoop]
          simp only [if_pos hlh, hfit, if_true]
        have hrec := ih ((low + high) / 2 + 1) high ((low + high) / 2) (by omega)
        rw [heq]
        constructor
        · rcases hrec.1 with h | ⟨h1, h2, h3⟩
          · rw [h]
            exact Or.inr ⟨by omega, by omega, hfit⟩
          · exact Or.inr ⟨by omega, h2, h3⟩
        · intro s hs1 hs2 hs3
          by_cases hsm : s ≤ (low + high) / 2
          · rcases hrec.1 with h | ⟨h1, h2, h3⟩
            · rw [h]; omega
            · omega
          · exact hrec.2 s (by omega) hs2 hs3
      · have heq : shrinkLoop fits (n + 1) low high best =
            shrinkLoop fits n low ((low + high) / 2 - 1) best := by
          rw [shrinkLoop]
          simp only [if_pos hlh, hfit, if_false, Bool.false_eq_true]
        have hrec := ih low ((low + high) / 2 - 1) best (by omega)
        rw [heq]
        constructor
        · rcases hrec.1 with h | ⟨h1, h2, h3⟩
          · exact Or.inl h
          · exact Or.inr ⟨h1, by omega, h3⟩
        · intro s hs1 hs2 hs3
          by_cases hsm : s ≤ (low + high) / 2 - 1
          · exact hrec.2 s hs1 hsm hs3
          · exact absurd (hdc ((low + high) / 2) s (by omega) hs3) (by simpa using hfit)
    · have heq : shrinkLoop fits (n + 1) low high best = best := by
        rw [shrinkLoop]
        simp only [if_neg hlh]
      rw [heq]
      refine ⟨Or.inl rfl, ?_⟩
      intro s hs1 hs2 _
      omega

end TextUtils

/-- C4 counterexample: with min_font_size 10 above initial_size 5, the
search interval is empty and shrink_to_fit returns min_size = 10, which
does not lie in the (empty) closed interval [10, 5]: the returned size
is not at most the initial size. -/
theorem C4_counterexample_result_above_initial :
    TextUtils.shrink_to_fit swLen "hi" "Helvetica" 5 100 10 = 10 ∧
    ¬ TextUtils.shrink_to_fit swLen "hi" "Helvetica" 5 100 10 ≤ 5 := by
  with_unfolding_all decide

/-- C4 (amended): for every content, font and any width measure monotone
in the font size, shrink_to_fit never decreases when max_width increases,
and, provided min_size does not exceed initial_size, the result lies in
the closed interval [min_size, initial_size]. -/
theorem C4_shrink_to_fit_monotone_bounded (sw : TextUtils.StringWidth)
    (content font_name : String) (initial_size min_size : ℤ) (w1 w2 : ℚ)
    (hmono : ∀ s t : ℤ, s ≤ t → sw content font_name s ≤ sw content font_name t)
    (hw : w1 ≤ w2) :
    TextUtils.shrink_to_fit sw content font_name initial_size w1 min_size ≤
      TextUtils.shrink_to_fit sw content font_name initial_size w2 min_size ∧
    (min_size ≤ initial_size →
      min_size ≤ TextUtils.shrink_to_fit sw content font_name initial_size w1 min_size ∧
      TextUtils.shrink_to_fit sw content font_name initial_size w1 min_size ≤ initial_size) := by
  have hdc : ∀ w : ℚ, ∀ s t : ℤ, s ≤ t →
      (TextUtils.measure_text sw content font_name t w none none).fits_within_bounds = true →
      (TextUtils.measure_text sw content font_name s w none none).fits_within_bounds = true := by
    intro w s t hst ht
    rw [TextUtils.measure_text_none_fits] at ht ⊢
    rw [decide_eq_true_eq] at ht ⊢
    exact le_trans (hmono s t hst) ht
  have h1 := TextUtils.shrinkLoop_spec _ (hdc w1)
    (initial_size + 1 - min_size).toNat min_size initial_size min_size le_rfl
  have h2 := TextUtils.shrinkLoop_spec _ (hdc w2)
    (initial_size + 1 - min_size).toNat min_size initial_size min_size le_rfl
  refine ⟨?_, ?_⟩
  · show TextUtils.shrinkLoop _ _ _ _ _ ≤ TextUtils.shrinkLoop _ _ _ _ _
    rcases h1.1 with heq | ⟨ha, hb, hc⟩
    · rw [heq]
      rcases h2.1 with heq2 | ⟨ha2, _, _⟩
      · rw [heq2]
      · exact ha2
    · apply h2.2 _ ha hb
      rw [TextUtils.measure_text_none_fits, decide_eq_true_eq] at hc ⊢
      exact le_trans hc hw
  · intro hmi
    show min_size ≤ TextUtils.shrinkLoop _ _ _ _ _ ∧ TextUtils.shrinkLoop _ _ _ _ _ ≤ _
    rcases h1.1 with heq | ⟨ha, hb, _⟩
    · rw [heq]
      exact ⟨le_rfl, hmi⟩
    · exact ⟨ha, hb⟩

/-- Closed instance of C4_shrink_to_fit_monotone_bounded with the
proportional width oracle, initial size 20, minimum 8 and widths
50 and 100. -/
theorem C4_shrink_to_fit_monotone_bounded_witness :
    TextUtils.shrink_to_fit swProp "hi" "Helvetica" 20 50 8 ≤
      TextUtils.shrink_to_fit swProp "hi" "Helvetica" 20 100 8 ∧
    (8 : ℤ) ≤ TextUtils.shrink_to_fit swProp "hi" "Helvetica" 20 50 8 ∧
    TextUtils.shrink_to_fit swProp "hi" "Helvetica" 20 50 8 ≤ 20 := by
  have h := C4_shrink_to_fit_monotone_bounded swProp "hi" "Helvetica" 20 8 50 100
    (fun s t hst => by
      unfold swProp
      exact mul_le_mul_of_nonneg_left (by exact_mod_cast hst) (Nat.cast_nonneg _))
    (by norm_num)
  exact ⟨h.1, (h.2 (by norm_num)).1, (h.2 (by norm_num)).2⟩

namespace TextUtils

/-- Invariant of the wrap loop: every saved line, and the current line
when non-empty, either fits max_width as joined or is a single word. -/
theorem wrapLoop_good (sw : StringWidth) (fn : String) (fs : ℤ) (mw : ℚ)
    (ml : Option ℕ) :
    ∀ (ws : List String) (lines : List (List String)) (current : List String),
      (∀ l ∈ lines, sw (joinWords l) fn fs ≤ mw ∨ ∃ u, l = [u]) →
      (current ≠ [] → sw (joinWords current) fn fs ≤ mw ∨ ∃ u, current = [u]) →
      (∀ l ∈ (wrapLoop sw fn fs mw ml ws lines current).1,
        sw (joinWords l) fn fs ≤ mw ∨ ∃ u, l = [u]) ∧
      ((wrapLoop sw fn fs mw ml ws lines current).2 ≠ [] →
        sw (joinWords (wrapLoop sw fn fs mw ml ws lines current).2) fn fs ≤ mw ∨
          ∃ u, (wrapLoop sw fn fs mw ml ws lines current).2 = [u]) := by
  intro ws
  induction ws with
  | nil =>
    intro lines current h1 h2
    rw [wrapLoop]
    exact ⟨h1, h2⟩
  | cons w ws ih =>
    intro lines current h1 h2
    rw [wrapLoop]
    by_cases hfit : sw (joinWords (current ++ [w])) fn fs ≤ mw
    · simp only [if_pos hfit]
      have h2' : current ++ [w] ≠ [] →
          sw (joinWords (current ++ [w])) fn fs ≤ mw ∨ ∃ u, current ++ [w] = [u] :=
        fun _ => Or.inl hfit
      by_cases hbrk : mlTruthy ml = true ∧ mlVal ml ≤ lines.length
      · simp only [if_pos hbrk]
        exact ⟨h1, h2'⟩
      · simp only [if_neg hbrk]
        exact ih lines (current ++ [w]) h1 h2'
    · by_cases hc : current = []
      · subst hc
        simp only [if_neg hfit, List.isEmpty_nil, not_true, if_false]
        have h1' : ∀ l ∈ lines ++ [[w]],
            sw (joinWords l) fn fs ≤ mw ∨ ∃ u, l = [u] := by
          intro l hl
          rcases List.mem_append.mp hl with hl | hl
          · exact h1 l hl
          · exact Or.inr ⟨w, by simpa using hl⟩
        have h2' : ([] : List String) ≠ [] →
            sw (joinWords []) fn fs ≤ mw ∨ ∃ u, ([] : List String) = [u] :=
          fun hcon => absurd rfl hcon
        by_cases hbrk : mlTruthy ml = true ∧ mlVal ml ≤ (lines ++ [[w]]).length
        · simp only [if_pos hbrk]
          exact ⟨h1', h2'⟩
        · simp only [if_neg hbrk]
          exact ih (lines ++ [[w]]) [] h1' h2'
      · have hce : current.isEmpty = false := by
          simpa [List.isEmpty_iff] using hc
        simp only [if_neg hfit, hce, not_false_iff, if_true, Bool.false_eq_true]
        have h1' : ∀ l ∈ lines ++ [current],
            sw (joinWords l) fn fs ≤ mw ∨ ∃ u, l = [u] := by
          intro l hl
          rcases List.mem_append.mp hl with hl | hl
          · exact h1 l hl
          · have : l = current := by simpa using hl
            rw [this]
            exact h2 hc
        have h2' : [w] ≠ [] → sw (joinWords [w]) fn fs ≤ mw ∨ ∃ u, [w] = [u] :=
          fun _ => Or.inr ⟨w, rfl⟩
        by_cases hbrk : mlTruthy ml = true ∧ mlVal ml ≤ (lines ++ [current]).length
        · simp only [if_pos hbrk]
          exact ⟨h1', h2'⟩
        · simp only [if_neg hbrk]
          exact ih (lines ++ [current]) [w] h1' h2'

/-- The words of the saved lines followed by the current line are always
an initial segment of the processed input; nothing is ever reordered, and
with a falsy line cap nothing is dropped either. -/
theorem wrapLoop_words (sw : StringWidth) (fn : String) (fs : ℤ) (mw : ℚ)
    (ml : Option ℕ) :
    ∀ (ws : List String) (lines : List (List String)) (current : List String),
      ∃ t : List String,
        (wrapLoop sw fn fs mw ml ws lines current).1.flatten ++
          ((wrapLoop sw fn fs mw ml ws lines current).2 ++ t) =
          lines.flatten ++ (current ++ ws) ∧
        (mlTruthy ml = false → t = []) := by
  intro ws
  induction ws with
  | nil =>
    intro lines current
    refine ⟨[], ?_, fun _ => rfl⟩
    simp [wrapLoop]
  | cons w ws ih =>
    intro lines current
    rw [wrapLoop]
    by_cases hfit : sw (joinWords (current ++ [w])) fn fs ≤ mw
    · simp only [if_pos hfit]
      by_cases hbrk : mlTruthy ml = true ∧ mlVal ml ≤ lines.length
      · simp only [if_pos hbrk]
        refine ⟨ws, by simp, fun hfalse => absurd hbrk.1 (by simp [hfalse])⟩
      · simp only [if_neg hbrk]
        obtain ⟨t, ht, htf⟩ := ih lines (current ++ [w])
        exact ⟨t, by simpa using ht, htf⟩
    · by_cases hc : current = []
      · subst hc
        simp only [if_neg hfit, List.isEmpty_nil, not_true, if_false]
        by_cases hbrk : mlTruthy ml = true ∧ mlVal ml ≤ (lines ++ [[w]]).length
        · simp only [if_pos hbrk]
          refine ⟨ws, by simp, fun hfalse => absurd hbrk.1 (by simp [hfalse])⟩
        · simp only [if_neg hbrk]
          obtain ⟨t, ht, htf⟩ := ih (lines ++ [[w]]) []
          exact ⟨t, by simpa using ht, htf⟩
      · have hce : current.isEmpty = false := by
          simpa [List.isEmpty_iff] using hc
        simp only [if_neg hfit, hce, not_false_iff, if_true, Bool.false_eq_true]
        by_cases hbrk : mlTruthy ml = true ∧ mlVal ml ≤ (lines ++ [current]).length
        · simp only [if_pos hbrk]
          refine ⟨ws, by simp, fun hfalse => absurd hbrk.1 (by simp [hfalse])⟩
        · simp only [if_neg hbrk]
          obtain ⟨t, ht, htf⟩ := ih (lines ++ [current]) [w]
          exact ⟨t, by simpa using ht, htf⟩

/-- Full specification of wrapTextWords on an arbitrary word list: an
overwide returned line is a single word; the returned words are an
initial segment of the input, all of it when the cap is falsy; a truthy
cap bounds the line count. -/
theorem wrapTextWords_spec (sw : StringWidth) (fn : String) (fs : ℤ) (mw : ℚ)
    (ml : Option ℕ) (ws : List String) :
    (∀ l ∈ wrapTextWords sw fn fs mw ml ws,
      mw < sw (joinWords l) fn fs → ∃ u, l = [u]) ∧
    (∃ t, (wrapTextWords sw fn fs mw ml ws).flatten ++ t = ws) ∧
    (mlTruthy ml = false → (wrapTextWords sw fn fs mw ml ws).flatten = ws) ∧
    (mlTruthy ml = true → (wrapTextWords sw fn fs mw ml ws).length ≤ mlVal ml) := by
  obtain ⟨L, C, hLC⟩ : ∃ L C, wrapLoop sw fn fs mw ml ws [] [] = (L, C) := ⟨_, _, rfl⟩
  have hGood := wrapLoop_good sw fn fs mw ml ws [] []
    (by intro l hl; simp at hl) (fun h => absurd rfl h)
  obtain ⟨t, ht, htf⟩ := wrapLoop_words sw fn fs mw ml ws [] []
  rw [hLC] at hGood ht
  simp only [List.flatten_nil, List.nil_append] at ht
  have hGL : ∀ l ∈ L, sw (joinWords l) fn fs ≤ mw ∨ ∃ u, l = [u] := hGood.1
  have hGC : C ≠ [] → sw (joinWords C) fn fs ≤ mw ∨ ∃ u, C = [u] := hGood.2
  have hR : wrapTextWords sw fn fs mw ml ws =
      (if mlTruthy ml then
        (if ¬ C.isEmpty ∧ (¬ mlTruthy ml ∨ L.length < mlVal ml)
         then L ++ [C] else L).take (mlVal ml)
       else
        (if ¬ C.isEmpty ∧ (¬ mlTruthy ml ∨ L.length < mlVal ml)
         then L ++ [C] else L)) := by
    unfold wrapTextWords
    rw [hLC]
  have hG2 : ∀ l ∈ (if ¬ C.isEmpty ∧ (¬ mlTruthy ml ∨ L.length < mlVal ml)
      then L ++ [C] else L), sw (joinWords l) fn fs ≤ mw ∨ ∃ u, l = [u] := by
    split_ifs with happ
    · intro l hl
      rcases List.mem_append.mp hl with h | h
      · exact hGL l h
      · have hlC : l = C := by simpa using h
        rw [hlC]
        apply hGC
        intro hnil
        rw [hnil] at happ
        simp at happ
    · exact hGL
  have hW2 : ∃ t2, (if ¬ C.isEmpty ∧ (¬ mlTruthy ml ∨ L.length < mlVal ml)
      then L ++ [C] else L).flatten ++ t2 = ws ∧ (mlTruthy ml = false → t2 = []) := by
    split_ifs with happ
    · refine ⟨t, ?_, htf⟩
      simpa [List.flatten_append, List.append_assoc] using ht
    · by_cases hml : mlTruthy ml = true
      · refine ⟨C ++ t, ?_, fun hfalse => absurd hml (by simp [hfalse])⟩
        exact ht
      · have hCe : C = [] := by
          by_contra hCne
          apply happ
          refine ⟨by simpa [List.isEmpty_iff] using hCne, Or.inl hml⟩
        subst hCe
        refine ⟨t, ?_, htf⟩
        simpa using ht
  obtain ⟨t2, ht2, ht2f⟩ := hW2
  rw [hR]
  by_cases hml : mlTruthy ml = true
  · rw [if_pos hml]
    refine ⟨?_, ?_, ?_, ?_⟩
    · intro l hl hwide
      rcases hG2 l (List.take_subset _ _ hl) with hle | hsing
      · exact absurd hwide (not_lt.mpr hle)
      · exact hsing
    · refine ⟨((if ¬ C.isEmpty ∧ (¬ mlTruthy ml ∨ L.length < mlVal ml)
        then L ++ [C] else L).drop (mlVal ml)).flatten ++ t2, ?_⟩
      rw [← List.append_assoc, ← List.flatten_append, List.take_append_drop]
      exact ht2
    · intro hfalse
      exact absurd hml (by simp [hfalse])
    · intro _
      exact List.length_take_le _ _
  · rw [if_neg hml]
    have hmlf : mlTruthy ml = false := by simpa using hml
    refine ⟨?_, ⟨t2, ht2⟩, ?_, ?_⟩
    · intro l hl hwide
      rcases hG2 l hl with hle | hsing
      · exact absurd hwide (not_lt.mpr hle)
      · exact hsing
    · intro _
      rw [ht2f hmlf] at ht2
      simpa using ht2
    · intro htrue
      exact absurd htrue hml

end TextUtils

/-- C5 counterexample: with a width measure equal to the character count,
content "aa bb cc", max_width 2 and max_lines 1, wrap_text returns
["aa"]: the words of the returned lines are not the words of the
original content — bb and cc were silently dropped by the line cap. -/
theorem C5_counterexample_words_lost :
    TextUtils.wrap_text swLen "aa bb cc" "Helvetica" 12 2 (some 1) = ["aa"] ∧
    ((TextUtils.wrap_text swLen "aa bb cc" "Helvetica" 12 2 (some 1)).map
        TextUtils.splitWords).flatten ≠ TextUtils.splitWords "aa bb cc" := by
  with_unfolding_all decide

/-- C5 (amended): analysed on the word-list core wrapTextWords (whose
space-joined image is wrap_text, last conjunct): a returned line wider
than max_width is always a single word; the words of the returned lines
are an initial segment of the original words — all of them when the
max_lines cap is falsy (None or 0); and a truthy cap bounds the number of
lines.  Full word preservation fails in general: a truthy cap can drop
trailing words. -/
theorem C5_wrap_text_properties (sw : TextUtils.StringWidth)
    (content font_name : String) (font_size : ℤ) (max_width : ℚ)
    (max_lines : Option ℕ) :
    (∀ l ∈ TextUtils.wrapTextWords sw font_name font_size max_width max_lines
        (TextUtils.splitWords content),
      max_width < sw (TextUtils.joinWords l) font_name font_size → ∃ u, l = [u]) ∧
    (∃ t, (TextUtils.wrapTextWords sw font_name font_size max_width max_lines
        (TextUtils.splitWords content)).flatten ++ t =
        TextUtils.splitWords content) ∧
    (TextUtils.mlTruthy max_lines = false →
      (TextUtils.wrapTextWords sw font_name font_size max_width max_lines
        (TextUtils.splitWords content)).flatten = TextUtils.splitWords content) ∧
    (TextUtils.mlTruthy max_lines = true →
      (TextUtils.wrapTextWords sw font_name font_size max_width max_lines
        (TextUtils.splitWords content)).length ≤ TextUtils.mlVal max_lines) ∧
    TextUtils.wrap_text sw content font_name font_size max_width max_lines =
      (TextUtils.wrapTextWords sw font_name font_size max_width max_lines
        (TextUtils.splitWords content)).map TextUtils.joinWords := by
  obtain ⟨h1, h2, h3, h4⟩ := TextUtils.wrapTextWords_spec sw font_name font_size
    max_width max_lines (TextUtils.splitWords content)
  exact ⟨h1, h2, h3, h4, rfl⟩

/-- Closed instance of C5_wrap_text_properties: an overwide line is its
single word (content "aaaaa" against width 2); the kept words of
"aa bb cc" under a one-line cap are an initial segment of its words; the
one-line cap bounds the line count. -/
theorem C5_wrap_text_properties_witness :
    (∃ u, ["aaaaa"] = [u]) ∧
    (∃ t, (TextUtils.wrapTextWords swLen "Helvetica" 12 2 (some 1)
        (TextUtils.splitWords "aa bb cc")).flatten ++ t =
        TextUtils.splitWords "aa bb cc") ∧
    (TextUtils.wrapTextWords swLen "Helvetica" 12 2 (some 1)
        (TextUtils.splitWords "aa bb cc")).length ≤ TextUtils.mlVal (some 1) :=
  ⟨(C5_wrap_text_properties swLen "aaaaa" "Helvetica" 12 2 none).1 ["aaaaa"]
      (by with_unfolding_all decide) (by with_unfolding_all decide),
   (C5_wrap_text_properties swLen "aa bb cc" "Helvetica" 12 2 (some 1)).2.1,
   (C5_wrap_text_properties swLen "aa bb cc" "Helvetica" 12 2 (some 1)).2.2.2.1
     (by decide)⟩

end HolidayCard
